import Mathlib

/-!
Shallow embedding of the sidecar process supervisor of
`src/src-tauri/src/main.rs` (Tauri shell around a Python worker process),
together with theorems checking the natural-language specification
against it.  Pure helpers (`sanitize_download_filename`,
`should_open_external_browser`) are embedded directly; the effectful
supervisor code (shutdown coordinator, stale-instance reaper, artifact
stager, launcher and health gate) is embedded as pure functions over an
explicit environment (an oracle answering the OS queries the code makes)
that return the final supervisor state together with the list of
process/filesystem actions performed.
-/

namespace AppCollab

/-! ## Navigation target classification (main.rs lines 67-80) -/

/-- Embeds `is_internal_navigation_target`: the Rust `matches!` over
`(scheme, host)` pairs. -/
def is_internal_navigation_target (scheme : String) (host : Option String) : Bool :=
  (scheme == "tauri" && host == some "localhost")
    || ((scheme == "http" || scheme == "https") && host == some "tauri.localhost")
    || ((scheme == "http" || scheme == "https")
          && (host == some "localhost" || host == some "127.0.0.1"))

/-- Embeds `should_open_external_browser`. -/
def should_open_external_browser (scheme : String) (host : Option String) : Bool :=
  (scheme == "http" || scheme == "https") && !(is_internal_navigation_target scheme host)

/-! ## Download filename sanitisation (main.rs lines 34-65)

Strings are modelled as `List Char`; every Rust string operation used by
`sanitize_download_filename` is char-based (`replace('\\', "/")`,
`rsplit('/')`, `trim`, `chars().map`, `trim_matches('.')`), and the
cleaned string is pure ASCII so `truncate(120)` is `List.take 120`. -/

/-- Rust `char::is_whitespace`: the Unicode `White_Space` property. -/
def rustIsWhitespace (c : Char) : Bool :=
  let n := c.toNat
  (9 ≤ n && n ≤ 13) || n == 32 || n == 133 || n == 160 || n == 5760
    || (8192 ≤ n && n ≤ 8202) || n == 8232 || n == 8233 || n == 8239
    || n == 8287 || n == 12288

/-- Rust `char::is_ascii_alphanumeric`. -/
def isAsciiAlphanumeric (c : Char) : Bool :=
  let n := c.toNat
  (48 ≤ n && n ≤ 57) || (65 ≤ n && n ≤ 90) || (97 ≤ n && n ≤ 122)

/-- The character class kept by the sanitiser:
`c.is_ascii_alphanumeric() || matches!(c, '.' | '-' | '_' | '(' | ')' | ' ' | '%')`. -/
def isAllowedFilenameChar (c : Char) : Bool :=
  isAsciiAlphanumeric c || c == '.' || c == '-' || c == '_'
    || c == '(' || c == ')' || c == ' ' || c == '%'

/-- One step of the `chars().map(...)` in `sanitize_download_filename`. -/
def sanitizeChar (c : Char) : Char :=
  if isAllowedFilenameChar c then c else '_'

/-- `normalized.rsplit('/').next().unwrap_or("")`: the segment after the
last `'/'`. -/
def lastSegment (l : List Char) : List Char :=
  (l.reverse.takeWhile (fun c => !(c == '/'))).reverse

/-- Strip characters satisfying `p` from both ends of the list
(Rust `trim` / `trim_matches`). -/
def trimEnds (p : Char → Bool) (l : List Char) : List Char :=
  ((l.dropWhile p).reverse.dropWhile p).reverse

/-- Embeds `sanitize_download_filename` (main.rs lines 35-65). -/
def sanitize_download_filename (raw : List Char) : List Char :=
  let fallback := "download".toList
  let normalized := raw.map (fun c => if c == '\\' then '/' else c)
  let base := trimEnds rustIsWhitespace (lastSegment normalized)
  if base = [] ∨ base = ['.'] ∨ base = ['.', '.'] then fallback
  else
    let cleaned := base.map sanitizeChar
    let cleaned := trimEnds rustIsWhitespace (trimEnds (fun c => c == '.') cleaned)
    if cleaned = [] ∨ cleaned = ['.'] ∨ cleaned = ['.', '.'] then fallback
    else cleaned.take 120

/-! ## Supervisor state and process actions

The process-wide statics of main.rs: `SIDECAR_STARTED`, `BACKEND_PORT`,
`SIDECAR_PID` (0 = none) and the `SIDECAR_CHILD` handle slot.  The
`SHUTDOWN_IN_PROGRESS` flag lives in the event-loop state (see below).
Side effects on the OS are recorded as `ProcAction`s; liveness queries
(`is_process_running`) are answered by a `ProcEnv` oracle indexed by the
query round, so any pattern of OS answers is covered. -/

structure SupervisorState where
  sidecarStarted : Bool
  backendPort : Nat
  sidecarPid : Nat
  sidecarChild : Option Unit
  deriving DecidableEq, Repr

/-- The state at process start: all statics zero / false / empty. -/
def initialSupervisorState : SupervisorState :=
  { sidecarStarted := false, backendPort := 0, sidecarPid := 0, sidecarChild := none }

/-- OS-level process actions issued by the supervisor.  `killTerm`/`kill9`
are `kill -15` / `kill -9` on one PID, `killTermChildren`/`kill9Children`
are `pkill -15 -P` / `pkill -9 -P`, `forceKillTree` is Windows
`taskkill /F /T`, `killByName` is the `pkill -9 -f provisioning-station`
sweep, `childHandleKill` is `CommandChild::kill`, `sleepMs` a blocking
sleep. -/
inductive ProcAction where
  | killTerm (pid : Nat)
  | kill9 (pid : Nat)
  | killTermChildren (pid : Nat)
  | kill9Children (pid : Nat)
  | forceKillTree (pid : Nat)
  | killByName
  | childHandleKill
  | sleepMs (ms : Nat)
  | spawnWorker (pid : Nat) (args : List String)
  | healthProbe (attempt : Nat)
  deriving DecidableEq, Repr

/-- Actions of `send_terminate_signal` (main.rs lines 157-183, Unix
build): `pkill -15 -P pid` then `kill -15 pid`. -/
def send_terminate_signal (pid : Nat) : List ProcAction :=
  [ProcAction.killTermChildren pid, ProcAction.killTerm pid]

/-- Actions of `force_kill_process` (main.rs lines 185-211, Unix build):
`pkill -9 -P pid` then `kill -9 pid`. -/
def force_kill_process (pid : Nat) : List ProcAction :=
  [ProcAction.kill9Children pid, ProcAction.kill9 pid]

/-- Actions of `force_kill_by_name` (main.rs lines 264-279). -/
def force_kill_by_name : List ProcAction :=
  [ProcAction.killByName]

/-- Environment oracle for the shutdown coordinator: the snapshot of
child PIDs `get_child_pids` returns, and the answer `is_process_running`
gives for each PID at each query round (round 0 is the initial liveness
check, rounds 1-50 the graceful-wait polls, rounds 51-60 the post-force
polls). -/
structure ProcEnv where
  childPidsOf : Nat → List Nat
  running : Nat → Nat → Bool

/-- The poll-loop exit test of `shutdown_sidecar_graceful`: parent and
every snapshotted child have exited at round `round`. -/
def allExited (env : ProcEnv) (round pid : Nat) (children : List Nat) : Bool :=
  !env.running round pid && children.all (fun c => !env.running round c)

/-- First round in `[start, start+fuel)` at which `allExited` holds
(the early-return search of the two wait loops). -/
def findExitRound (env : ProcEnv) (pid : Nat) (children : List Nat) :
    Nat → Nat → Option Nat
  | _, 0 => none
  | start, fuel + 1 =>
    if allExited env start pid children then some start
    else findExitRound env pid children (start + 1) fuel

/-- Embeds `shutdown_sidecar_graceful` (main.rs lines 366-468, Unix
build).  Returns the `graceful` flag, the supervisor state after the
call, and the OS actions issued, in order. -/
def shutdown_sidecar_graceful (env : ProcEnv) (s : SupervisorState) :
    Bool × SupervisorState × List ProcAction :=
  -- let pid = SIDECAR_PID.swap(0)
  let pid := s.sidecarPid
  let s := { s with sidecarPid := 0 }
  if pid = 0 then
    -- no PID recorded: mark stopped and sweep by name
    (true, { s with sidecarStarted := false }, force_kill_by_name)
  else
    -- snapshot children BEFORE any signal
    let childPids := env.childPidsOf pid
    if !env.running 0 pid then
      -- already exited: force-kill the snapshotted children, mark stopped
      (true, { s with sidecarStarted := false },
        childPids.flatMap force_kill_process)
    else
      -- take the stored child handle (take() empties the slot either way)
      let handleActs : List ProcAction :=
        match s.sidecarChild with
        | some _ => [ProcAction.childHandleKill]
        | none => []
      let s := { s with sidecarChild := none }
      let sigActs := handleActs ++ send_terminate_signal pid
        ++ childPids.flatMap send_terminate_signal
      -- graceful wait: 50 polls of 100 ms (GRACEFUL_SHUTDOWN_TIMEOUT_SECS = 5)
      match findExitRound env pid childPids 1 50 with
      | some _ => (true, { s with sidecarStarted := false }, sigActs)
      | none =>
        -- timeout: force-kill children then parent
        let forceActs := childPids.flatMap force_kill_process ++ force_kill_process pid
        -- confirmation wait: 10 polls of 100 ms
        match findExitRound env pid childPids 51 10 with
        | some _ => (false, { s with sidecarStarted := false }, sigActs ++ forceActs)
        | none =>
          -- last resort: kill by name
          (false, { s with sidecarStarted := false },
            sigActs ++ forceActs ++ force_kill_by_name)

/-! ## Run-event loop (main.rs lines 647-696)

Tauri delivers `RunEvent`s to the `.run` closure sequentially on the
main event loop; a shutdown may be triggered several times over
(window close, app quit, final exit).  The loop state carries the
`SHUTDOWN_IN_PROGRESS` flag, the supervisor state, and a count of how
many times the shutdown body (`shutdown_sidecar_graceful`) has run. -/

inductive AppEvent where
  | closeRequested
  | exitRequested
  | exit
  deriving DecidableEq, Repr

structure LoopState where
  shutdownInProgress : Bool
  sup : SupervisorState
  bodyRuns : Nat
  deriving DecidableEq, Repr

/-- Embeds one arm of the `RunEvent` match.  `CloseRequested` gates on
`SHUTDOWN_IN_PROGRESS.swap(true)`; `ExitRequested` gates on a load test
followed by a store; `Exit` force-kills by the recorded PID without
touching the flag or running the shutdown body. -/
def handleRunEvent (env : ProcEnv) (st : LoopState) : AppEvent → LoopState
  | .closeRequested =>
    if st.shutdownInProgress then st   -- swap returned true: already shutting down
    else
      let r := shutdown_sidecar_graceful env st.sup
      { shutdownInProgress := true, sup := r.2.1, bodyRuns := st.bodyRuns + 1 }
  | .exitRequested =>
    if st.shutdownInProgress then st   -- cleanup already done
    else
      let r := shutdown_sidecar_graceful env st.sup
      { shutdownInProgress := true, sup := r.2.1, bodyRuns := st.bodyRuns + 1 }
  | .exit => st

/-- Sequential processing of the event stream by the run loop. -/
def runAppEvents (env : ProcEnv) (l : List AppEvent) (st : LoopState) : LoopState :=
  l.foldl (handleRunEvent env) st

/-! ## Stale-instance reaper (main.rs lines 281-364)

`cleanup_leftover_processes` scans for processes matching the worker
name.  The Unix build sends `kill -15`, sleeps 500 ms, checks liveness
and force-kills only if still running; the Windows build force-kills
each match immediately (`taskkill /F /PID pid /T`).  The environment
gives the matching PIDs and the liveness answer after the grace
period. -/

structure CleanupEnv where
  matchingPids : List Nat
  stillRunningAfterGrace : Nat → Bool

/-- The per-PID loop of the Unix branch of `cleanup_leftover_processes`. -/
def cleanupLoopUnix (env : CleanupEnv) : List Nat → Nat × List ProcAction
  | [] => (0, [])
  | pid :: rest =>
    let acts := ProcAction.killTerm pid :: ProcAction.sleepMs 500 ::
      (if env.stillRunningAfterGrace pid then force_kill_process pid else [])
    let r := cleanupLoopUnix env rest
    (r.1 + 1, acts ++ r.2)

/-- Embeds `cleanup_leftover_processes`, Unix build: returns the number
of processes cleaned and the actions issued. -/
def cleanup_leftover_processes_unix (env : CleanupEnv) : Nat × List ProcAction :=
  cleanupLoopUnix env env.matchingPids

/-- The per-PID loop of the Windows branch of
`cleanup_leftover_processes`: unconditional `taskkill /F /T`. -/
def cleanupLoopWindows : List Nat → Nat × List ProcAction
  | [] => (0, [])
  | pid :: rest =>
    let r := cleanupLoopWindows rest
    (r.1 + 1, ProcAction.forceKillTree pid :: r.2)

/-- Embeds `cleanup_leftover_processes`, Windows build. -/
def cleanup_leftover_processes_windows (env : CleanupEnv) : Nat × List ProcAction :=
  cleanupLoopWindows env.matchingPids

/-! ## Artifact stager (main.rs lines 708-802)

`setup_sidecar_bundle` works on the filesystem; the `FS` record gives
the existence answers and the `metadata(..).len()` results the code
reads (`unwrap_or(0)` maps a metadata failure to size 0, hence
`Option Nat` with `getD 0`). -/

structure FS where
  internalSrcExists : Bool
  extractedExeExists : Bool
  extractedInternalExists : Bool
  sidecarSrcExists : Bool
  srcSizeMeta : Option Nat
  dstSizeMeta : Option Nat
  deriving DecidableEq, Repr

inductive FsAction where
  | createCacheDir
  | copyExe
  | setExePerm
  | removeOldInternal
  | copyInternalDir
  | setDylibPerms
  deriving DecidableEq, Repr

/-- Embeds `setup_sidecar_bundle` (Unix build): `Except.ok` stands for
`Ok(extracted_exe)`, errors carry the source error strings.  Filesystem
side effects are returned as an action list, in program order. -/
def setup_sidecar_bundle (fs : FS) : Except String Unit × List FsAction :=
  if !fs.internalSrcExists then
    (Except.error "Development mode - use normal sidecar", [])
  else
    let needsExtraction :=
      if fs.extractedExeExists && fs.extractedInternalExists then
        let srcSize := fs.srcSizeMeta.getD 0
        let dstSize := fs.dstSizeMeta.getD 0
        srcSize ≠ dstSize
      else true
    if !needsExtraction then (Except.ok (), [])
    else if !fs.sidecarSrcExists then
      (Except.error "Sidecar executable not found", [])
    else
      (Except.ok (),
        [FsAction.createCacheDir, FsAction.copyExe, FsAction.setExePerm]
          ++ (if fs.extractedInternalExists then [FsAction.removeOldInternal] else [])
          ++ [FsAction.copyInternalDir, FsAction.setDylibPerms])

/-! ## Worker launcher and health gate (main.rs lines 857-1060) -/

/-- `GRACEFUL_SHUTDOWN_TIMEOUT_SECS` (main.rs line 28). -/
def GRACEFUL_SHUTDOWN_TIMEOUT_SECS : Nat := 5

/-- The health gate's attempt budget: `for attempt in 1..=60`. -/
def HEALTH_MAX_ATTEMPTS : Nat := 60

/-- The health gate's polling interval: `sleep(Duration::from_millis(500))`. -/
def HEALTH_POLL_INTERVAL_MS : Nat := 500

/-- The polled health endpoint:
`format!("http://127.0.0.1:{}/api/health", port)`. -/
def health_url (port : Nat) : String :=
  "http://127.0.0.1:" ++ toString port ++ "/api/health"

/-- Environment of `start_sidecar`: the secondary-cleanup scan results,
the resource-directory probes used when building the argument list, the
staging filesystem, the spawn outcome, the health oracle (attempt
number → did the GET return a success status), and the process oracle
used if the timeout path invokes the shutdown coordinator. -/
structure LaunchEnv where
  cleanupEnv : CleanupEnv
  solutionsDir : String
  solutionsDirExists : Bool
  frontendDir : String
  frontendDirExists : Bool
  fs : FS
  spawnOk : Bool
  spawnPid : Nat
  health : Nat → Bool
  procEnv : ProcEnv

/-- The worker argument list built by `start_sidecar` (main.rs lines
886-904): conditional flags are omitted entirely when the resource
directory is absent. -/
def buildSidecarArgs (port : Nat) (env : LaunchEnv) : List String :=
  ["--port", toString port, "--host", "127.0.0.1"]
    ++ (if env.solutionsDirExists then ["--solutions-dir", env.solutionsDir] else [])
    ++ (if env.frontendDirExists then ["--frontend-dir", env.frontendDir] else [])

/-- The health-gate poll loop (main.rs lines 1033-1046): returns whether
a success response was seen, and the probe/sleep actions in order.  The
loop returns at the first success; on failure it sleeps the fixed
interval and retries while budget remains. -/
def healthLoop (health : Nat → Bool) : Nat → Nat → Bool × List ProcAction
  | _, 0 => (false, [])
  | attempt, fuel + 1 =>
    if health attempt then (true, [ProcAction.healthProbe attempt])
    else
      let r := healthLoop health (attempt + 1) fuel
      (r.1, ProcAction.healthProbe attempt
        :: ProcAction.sleepMs HEALTH_POLL_INTERVAL_MS :: r.2)

/-- Embeds `start_sidecar` (main.rs lines 858-1060, Unix build).
Returns the `Result`, the supervisor state after the call, and the
process actions issued, in program order.  The bundled-mode branch
(staging succeeded) spawns directly and stores only the PID; the
development-mode branch (staging reported development mode) spawns via
the shell plugin and additionally stores the child handle. -/
def start_sidecar (env : LaunchEnv) (port : Nat) (s : SupervisorState) :
    Except String Unit × SupervisorState × List ProcAction :=
  if s.sidecarStarted then (Except.ok (), s, [])
  else
    -- secondary cleanup check (primary is in main() before port selection)
    let cleanupActs := (cleanup_leftover_processes_unix env.cleanupEnv).2
    let args := buildSidecarArgs port env
    let spawnRes : Except String (SupervisorState × List ProcAction) :=
      match (setup_sidecar_bundle env.fs).1 with
      | Except.ok _ =>
        if env.spawnOk then
          Except.ok ({ s with sidecarPid := env.spawnPid, sidecarStarted := true },
            [ProcAction.spawnWorker env.spawnPid args])
        else Except.error "spawn failed"
      | Except.error _ =>
        if env.spawnOk then
          Except.ok ({ s with sidecarPid := env.spawnPid, sidecarChild := some Unit.unit, sidecarStarted := true },
            [ProcAction.spawnWorker env.spawnPid args])
        else Except.error "spawn failed"
    match spawnRes with
    | Except.error e => (Except.error e, s, cleanupActs)
    | Except.ok (s', spawnActs) =>
      let h := healthLoop env.health 1 HEALTH_MAX_ATTEMPTS
      if h.1 then (Except.ok (), s', cleanupActs ++ spawnActs ++ h.2)
      else
        -- health check timed out: clean up the spawned sidecar
        let cleanupPair :=
          if s'.sidecarPid ≠ 0 then
            let r := shutdown_sidecar_graceful env.procEnv s'
            (r.2.1, r.2.2)
          else (s', ([] : List ProcAction))
        let s'' := { cleanupPair.1 with sidecarStarted := false, sidecarChild := none }
        (Except.error "Backend failed to start within timeout", s'',
          cleanupActs ++ spawnActs ++ h.2 ++ cleanupPair.2)

/-! ## Startup ordering (main.rs lines 513-528 and 858-1060)

`main` runs the reaper, then allocates the port, then (in the setup
hook) calls `start_sidecar`, which reaps again, stages, spawns, and
gates on health.  The step lists record that statement order. -/

inductive StartupStep where
  | reapLeftovers
  | allocatePort
  | stageBundle
  | spawnStep
  | healthGate
  deriving DecidableEq, Repr

/-- Statement order inside `start_sidecar` on the first (not-started)
call. -/
def start_sidecar_steps : List StartupStep :=
  [StartupStep.reapLeftovers, StartupStep.stageBundle,
   StartupStep.spawnStep, StartupStep.healthGate]

/-- Statement order of process startup: `main` reaps, allocates the
port, then hands off to `start_sidecar`. -/
def main_startup_steps : List StartupStep :=
  [StartupStep.reapLeftovers, StartupStep.allocatePort] ++ start_sidecar_steps

/-! ## Concrete inputs used by witnesses and counterexamples -/

/-- Environment oracle in which no process is ever observed running and
no children exist; used to instantiate hypotheses of the shutdown
theorems at a concrete input. -/
def quietProcEnv : ProcEnv :=
  { childPidsOf := fun _ => [], running := fun _ _ => false }

/-- Supervisor state with no recorded PID but a still-stored child
handle (the terminated event handler zeroes the PID without clearing
`SIDECAR_CHILD`). -/
def pidZeroChildState : SupervisorState :=
  { sidecarStarted := true, backendPort := 0, sidecarPid := 0,
    sidecarChild := some Unit.unit }

/-- Environment in which the worker is observed running at the initial
check (round 0) and exited from round 1 on. -/
def oneRoundProcEnv : ProcEnv :=
  { childPidsOf := fun _ => [], running := fun round _ => round == 0 }

/-- Supervisor state with a live recorded worker. -/
def runningSupState : SupervisorState :=
  { sidecarStarted := true, backendPort := 8000, sidecarPid := 7,
    sidecarChild := some Unit.unit }

/-- A scan that found one leftover worker process (PID 42) that ignores
signals. -/
def cexCleanupEnv : CleanupEnv :=
  { matchingPids := [42], stillRunningAfterGrace := fun _ => true }

/-- A filesystem in which the cache is complete and the size
fingerprints agree. -/
def freshFS : FS :=
  { internalSrcExists := true, extractedExeExists := true,
    extractedInternalExists := true, sidecarSrcExists := true,
    srcSizeMeta := some 100, dstSizeMeta := some 100 }

/-- A filesystem in which the cache is complete but the size
fingerprints differ. -/
def staleFS : FS :=
  { internalSrcExists := true, extractedExeExists := true,
    extractedInternalExists := true, sidecarSrcExists := true,
    srcSizeMeta := some 100, dstSizeMeta := some 90 }

/-- Launch environment in which the spawn succeeds (PID 9) but the
worker never reports healthy. -/
def timeoutLaunchEnv : LaunchEnv :=
  { cleanupEnv := { matchingPids := [], stillRunningAfterGrace := fun _ => false },
    solutionsDir := "/resources/_up_/solutions", solutionsDirExists := false,
    frontendDir := "/resources/_up_/frontend/dist", frontendDirExists := false,
    fs := freshFS, spawnOk := true, spawnPid := 9,
    health := fun _ => false, procEnv := oneRoundProcEnv }

/-! ## Theorems -/

/-- Claim C10: `should_open_external_browser` returns true iff the
scheme is http or https and the host is none of the internal targets;
non-http(s) schemes are never sent to the external browser, and hosts
merely prefixed by an internal name are external. -/
theorem C10_external_browser_iff :
    (∀ (scheme : String) (host : Option String),
      should_open_external_browser scheme host = true ↔
        ((scheme = "http" ∨ scheme = "https") ∧
          host ≠ some "localhost" ∧ host ≠ some "127.0.0.1" ∧
          host ≠ some "tauri.localhost"))
    ∧ should_open_external_browser "file" none = false
    ∧ should_open_external_browser "mailto" (some "example.com") = false
    ∧ should_open_external_browser "tauri" (some "localhost") = false
    ∧ should_open_external_browser "http" (some "localhost.evil.com") = true
    ∧ should_open_external_browser "https" (some "127.0.0.1.evil.com") = true := by
  refine ⟨?_, by decide, by decide, by decide, by decide, by decide⟩
  intro scheme host
  by_cases hh : scheme = "http" <;> by_cases hs2 : scheme = "https"
    <;> by_cases ht : scheme = "tauri" <;> by_cases hlh : host = some "localhost"
    <;> by_cases hip : host = some "127.0.0.1"
    <;> by_cases htl : host = some "tauri.localhost"
    <;> simp_all [should_open_external_browser, is_internal_navigation_target]

/-- Claim C3 counterexample: in the startup statement order of `main`,
the first stale-instance reaping precedes port allocation, so "port
allocation happens strictly before the stale-instance reaping" is false
of the first reap. -/
theorem C3_counterexample :
    main_startup_steps.indexOf StartupStep.reapLeftovers = 0
    ∧ main_startup_steps.indexOf StartupStep.allocatePort = 1
    ∧ ¬ main_startup_steps.indexOf StartupStep.allocatePort
        < main_startup_steps.indexOf StartupStep.reapLeftovers := by
  decide

/-- Claim C3 (amended): the reaper runs strictly before port
allocation; a second, defensive reaping runs after port allocation and
strictly before the worker spawn, which precedes the health gate. -/
theorem C3_amended_startup_order :
    main_startup_steps.indexOf StartupStep.reapLeftovers
      < main_startup_steps.indexOf StartupStep.allocatePort
    ∧ main_startup_steps[2]? = some StartupStep.reapLeftovers
    ∧ main_startup_steps.indexOf StartupStep.allocatePort < 2
    ∧ 2 < main_startup_steps.indexOf StartupStep.spawnStep
    ∧ main_startup_steps.indexOf StartupStep.spawnStep
      < main_startup_steps.indexOf StartupStep.healthGate := by
  decide

/-- Claim C4: when the recorded worker PID is zero at shutdown, the
coordinator clears the started flag, performs exactly the kill-by-name
sweep, and reports graceful = true. -/
theorem C4_pid_zero_kill_by_name (env : ProcEnv) (s : SupervisorState)
    (h : s.sidecarPid = 0) :
    (shutdown_sidecar_graceful env s).1 = true
    ∧ (shutdown_sidecar_graceful env s).2.2 = force_kill_by_name
    ∧ (shutdown_sidecar_graceful env s).2.1.sidecarPid = 0
    ∧ (shutdown_sidecar_graceful env s).2.1.sidecarStarted = false := by
  simp [shutdown_sidecar_graceful, h]

/-- Witness for C4 at a concrete input. -/
theorem C4_pid_zero_kill_by_name_witness :
    (shutdown_sidecar_graceful quietProcEnv initialSupervisorState).1 = true
    ∧ (shutdown_sidecar_graceful quietProcEnv initialSupervisorState).2.2
        = force_kill_by_name
    ∧ (shutdown_sidecar_graceful quietProcEnv initialSupervisorState).2.1.sidecarPid = 0
    ∧ (shutdown_sidecar_graceful quietProcEnv
        initialSupervisorState).2.1.sidecarStarted = false :=
  C4_pid_zero_kill_by_name quietProcEnv initialSupervisorState rfl

/-- Claim C8: if the started flag is already set, `start_sidecar` is a
no-op success: it returns `Ok`, leaves the whole supervisor state
(including the recorded PID and backend port) unchanged, and issues no
action at all — in particular no second spawn. -/
theorem C8_idempotent_launch (env : LaunchEnv) (port : Nat) (s : SupervisorState)
    (h : s.sidecarStarted = true) :
    start_sidecar env port s = (Except.ok (), s, []) := by
  simp [start_sidecar, h]

/-- Witness for C8 at a concrete input: a second launch call while
already started changes nothing. -/
theorem C8_idempotent_launch_witness :
    start_sidecar timeoutLaunchEnv 8000 runningSupState
      = (Except.ok (), runningSupState, []) :=
  C8_idempotent_launch timeoutLaunchEnv 8000 runningSupState rfl

/-- On every exit path of the shutdown coordinator the recorded PID is
zero and the started flag is false. -/
lemma shutdown_sidecar_graceful_clears (env : ProcEnv) (s : SupervisorState) :
    (shutdown_sidecar_graceful env s).2.1.sidecarPid = 0
    ∧ (shutdown_sidecar_graceful env s).2.1.sidecarStarted = false := by
  by_cases h0 : s.sidecarPid = 0
  · simp [shutdown_sidecar_graceful, h0]
  · cases h1 : env.running 0 s.sidecarPid
    · simp [shutdown_sidecar_graceful, h0, h1]
    · rcases hf : findExitRound env s.sidecarPid (env.childPidsOf s.sidecarPid) 1 50
        with _ | k
      · rcases hg : findExitRound env s.sidecarPid (env.childPidsOf s.sidecarPid) 51 10
          with _ | k2
        · simp [shutdown_sidecar_graceful, h0, h1, hf, hg]
        · simp [shutdown_sidecar_graceful, h0, h1, hf, hg]
      · simp [shutdown_sidecar_graceful, h0, h1, hf]

/-- Claim C2 counterexample: on the no-PID exit path the stored handle
is left in place, not taken/dropped — the claim's "every branch takes
the handle" fails at this input (the PID and started flag are still
cleared). -/
theorem C2_counterexample :
    (shutdown_sidecar_graceful quietProcEnv pidZeroChildState).2.1.sidecarChild
      = some Unit.unit
    ∧ (shutdown_sidecar_graceful quietProcEnv pidZeroChildState).2.1.sidecarPid = 0
    ∧ (shutdown_sidecar_graceful quietProcEnv
        pidZeroChildState).2.1.sidecarStarted = false := by
  decide

/-- Claim C2 (amended): every exit path of the shutdown coordinator
ends with the started flag false and the recorded PID zero; the stored
process handle is taken (slot left empty) on every path that reaches
the termination phase, i.e. whenever a PID was recorded and the process
was still observed running, while the no-PID and already-exited
branches leave the handle slot untouched. -/
theorem C2_amended_exit_state (env : ProcEnv) (s : SupervisorState) :
    (shutdown_sidecar_graceful env s).2.1.sidecarPid = 0
    ∧ (shutdown_sidecar_graceful env s).2.1.sidecarStarted = false
    ∧ (s.sidecarPid ≠ 0 → env.running 0 s.sidecarPid = true →
        (shutdown_sidecar_graceful env s).2.1.sidecarChild = none) := by
  refine ⟨(shutdown_sidecar_graceful_clears env s).1,
    (shutdown_sidecar_graceful_clears env s).2, ?_⟩
  intro h0 h1
  rcases hf : findExitRound env s.sidecarPid (env.childPidsOf s.sidecarPid) 1 50
    with _ | k
  · rcases hg : findExitRound env s.sidecarPid (env.childPidsOf s.sidecarPid) 51 10
      with _ | k2
    · simp [shutdown_sidecar_graceful, h0, h1, hf, hg]
    · simp [shutdown_sidecar_graceful, h0, h1, hf, hg]
  · simp [shutdown_sidecar_graceful, h0, h1, hf]

/-- Witness for the amended C2 at a concrete input whose execution
reaches the termination phase. -/
theorem C2_amended_exit_state_witness :
    (shutdown_sidecar_graceful oneRoundProcEnv runningSupState).2.1.sidecarPid = 0
    ∧ (shutdown_sidecar_graceful oneRoundProcEnv runningSupState).2.1.sidecarStarted
        = false
    ∧ (shutdown_sidecar_graceful oneRoundProcEnv runningSupState).2.1.sidecarChild
        = none :=
  ⟨(C2_amended_exit_state oneRoundProcEnv runningSupState).1,
   (C2_amended_exit_state oneRoundProcEnv runningSupState).2.1,
   (C2_amended_exit_state oneRoundProcEnv runningSupState).2.2 (by decide) rfl⟩

/-- Claim C6 counterexample: the Windows build of
`cleanup_leftover_processes` force-kills each match immediately — no
graceful signal and no 500 ms grace period — so the claimed
graceful-first protocol does not hold on every supported platform. -/
theorem C6_counterexample :
    (cleanup_leftover_processes_windows cexCleanupEnv).2
      = [ProcAction.forceKillTree 42]
    ∧ ProcAction.killTerm 42 ∉ (cleanup_leftover_processes_windows cexCleanupEnv).2
    ∧ ProcAction.sleepMs 500 ∉ (cleanup_leftover_processes_windows cexCleanupEnv).2
    ∧ (cleanup_leftover_processes_windows cexCleanupEnv).1 = 1 := by
  decide

/-- Claim C6 (amended): on Unix, for every matching process the reaper
sends the graceful signal, sleeps the fixed 500 ms grace period, and
force-kills exactly when the process is still running afterwards,
returning the number of matches; on Windows every matching process is
force-killed immediately (tree kill), again returning the number of
matches. -/
theorem C6_amended_reaper :
    (∀ env : CleanupEnv,
      cleanup_leftover_processes_unix env
        = (env.matchingPids.length,
            env.matchingPids.flatMap (fun pid =>
              ProcAction.killTerm pid :: ProcAction.sleepMs 500 ::
                (if env.stillRunningAfterGrace pid then force_kill_process pid
                 else []))))
    ∧ (∀ env : CleanupEnv,
      cleanup_leftover_processes_windows env
        = (env.matchingPids.length,
            env.matchingPids.map ProcAction.forceKillTree)) := by
  constructor
  · intro env
    have h : ∀ l : List Nat,
        cleanupLoopUnix env l
          = (l.length,
              l.flatMap (fun pid =>
                ProcAction.killTerm pid :: ProcAction.sleepMs 500 ::
                  (if env.stillRunningAfterGrace pid then force_kill_process pid
                   else []))) := by
      intro l
      induction l with
      | nil => simp [cleanupLoopUnix]
      | cons pid rest ih => simp [cleanupLoopUnix, ih]
    exact h env.matchingPids
  · intro env
    have h : ∀ l : List Nat,
        cleanupLoopWindows l = (l.length, l.map ProcAction.forceKillTree) := by
      intro l
      induction l with
      | nil => simp [cleanupLoopWindows]
      | cons pid rest ih => simp [cleanupLoopWindows, ih]
    exact h env.matchingPids

/-- Once the re-entrancy flag is set, every later event leaves the loop
state untouched (late callers return immediately). -/
lemma handleRunEvent_of_inProgress (env : ProcEnv) (st : LoopState) (e : AppEvent)
    (h : st.shutdownInProgress = true) : handleRunEvent env st e = st := by
  cases e <;> simp [handleRunEvent, h]

/-- Processing any event stream from a state with the flag set is the
identity. -/
lemma runAppEvents_of_inProgress (env : ProcEnv) (l : List AppEvent)
    (st : LoopState) (h : st.shutdownInProgress = true) :
    runAppEvents env l st = st := by
  induction l with
  | nil => rfl
  | cons e rest ih =>
    simp only [runAppEvents, List.foldl_cons]
    rw [handleRunEvent_of_inProgress env st e h]
    exact ih

/-- From a state with the flag clear, a stream containing at least one
shutdown trigger runs the shutdown body exactly once more and leaves
the flag set. -/
lemma runAppEvents_bodyRuns (env : ProcEnv) (l : List AppEvent) (st : LoopState)
    (hflag : st.shutdownInProgress = false)
    (hmem : AppEvent.closeRequested ∈ l ∨ AppEvent.exitRequested ∈ l) :
    (runAppEvents env l st).bodyRuns = st.bodyRuns + 1
    ∧ (runAppEvents env l st).shutdownInProgress = true := by
  induction l generalizing st with
  | nil => simp at hmem
  | cons e rest ih =>
    cases e with
    | closeRequested =>
      simp only [runAppEvents, List.foldl_cons]
      have hstep : handleRunEvent env st AppEvent.closeRequested
          = { shutdownInProgress := true,
              sup := (shutdown_sidecar_graceful env st.sup).2.1,
              bodyRuns := st.bodyRuns + 1 } := by
        simp [handleRunEvent, hflag]
      rw [hstep, show List.foldl (handleRunEvent env) _ rest = runAppEvents env rest _ from rfl,
        runAppEvents_of_inProgress env rest _ rfl]
      exact ⟨rfl, rfl⟩
    | exitRequested =>
      simp only [runAppEvents, List.foldl_cons]
      have hstep : handleRunEvent env st AppEvent.exitRequested
          = { shutdownInProgress := true,
              sup := (shutdown_sidecar_graceful env st.sup).2.1,
              bodyRuns := st.bodyRuns + 1 } := by
        simp [handleRunEvent, hflag]
      rw [hstep, show List.foldl (handleRunEvent env) _ rest = runAppEvents env rest _ from rfl,
        runAppEvents_of_inProgress env rest _ rfl]
      exact ⟨rfl, rfl⟩
    | exit =>
      have hmem' : AppEvent.closeRequested ∈ rest ∨ AppEvent.exitRequested ∈ rest := by
        rcases hmem with h | h
        · exact Or.inl (by
            rcases List.mem_cons.mp h with h' | h'
            · exact absurd h' (by decide)
            · exact h')
        · exact Or.inr (by
            rcases List.mem_cons.mp h with h' | h'
            · exact absurd h' (by decide)
            · exact h')
      simp only [runAppEvents, List.foldl_cons]
      have hstep : handleRunEvent env st AppEvent.exit = st := rfl
      rw [hstep]
      exact ih st hflag hmem'

/-- Claim C1: shutdown triggers are delivered sequentially by the run
loop; once the re-entrancy flag is set every further trigger returns
immediately without running the shutdown body, and for every event
stream containing at least one shutdown trigger (window close or
app-quit request) the shutdown body runs exactly once. -/
theorem C1_shutdown_exactly_once :
    (∀ (env : ProcEnv) (st : LoopState) (e : AppEvent),
      st.shutdownInProgress = true → handleRunEvent env st e = st)
    ∧ (∀ (env : ProcEnv) (s : SupervisorState) (l : List AppEvent),
      AppEvent.closeRequested ∈ l ∨ AppEvent.exitRequested ∈ l →
      (runAppEvents env l
        { shutdownInProgress := false, sup := s, bodyRuns := 0 }).bodyRuns = 1) :=
  ⟨fun env st e h => handleRunEvent_of_inProgress env st e h,
   fun env s l hmem =>
     (runAppEvents_bodyRuns env l
       { shutdownInProgress := false, sup := s, bodyRuns := 0 } rfl hmem).1⟩

/-- Witness for C1: three triggers (close, quit, final exit) run the
body exactly once, and a late event on a flagged state is a no-op. -/
theorem C1_shutdown_exactly_once_witness :
    (runAppEvents quietProcEnv
      [AppEvent.closeRequested, AppEvent.exitRequested, AppEvent.exit]
      { shutdownInProgress := false, sup := runningSupState, bodyRuns := 0 }).bodyRuns
      = 1
    ∧ handleRunEvent quietProcEnv
        { shutdownInProgress := true, sup := runningSupState, bodyRuns := 1 }
        AppEvent.closeRequested
      = { shutdownInProgress := true, sup := runningSupState, bodyRuns := 1 } :=
  ⟨C1_shutdown_exactly_once.2 quietProcEnv runningSupState
      [AppEvent.closeRequested, AppEvent.exitRequested, AppEvent.exit]
      (Or.inl (by decide)),
   C1_shutdown_exactly_once.1 quietProcEnv
      { shutdownInProgress := true, sup := runningSupState, bodyRuns := 1 }
      AppEvent.closeRequested rfl⟩

/-- Claim C7: when a staged executable and support directory both exist
and the source size fingerprint equals the cached one, the stager
reuses the cache and performs no filesystem operation; when the
fingerprint differs or the cache is incomplete (and the source
executable exists), it re-stages: copies the executable, sets its
executable permission, removes any previous `_internal` directory
before deep-copying the new one, and restores the executable bits on
shared libraries. -/
theorem C7_artifact_stager :
    (∀ fs : FS, fs.internalSrcExists = true → fs.extractedExeExists = true →
      fs.extractedInternalExists = true →
      fs.srcSizeMeta.getD 0 = fs.dstSizeMeta.getD 0 →
      setup_sidecar_bundle fs = (Except.ok (), []))
    ∧ (∀ fs : FS, fs.internalSrcExists = true → fs.sidecarSrcExists = true →
      (fs.extractedExeExists = false ∨ fs.extractedInternalExists = false ∨
        fs.srcSizeMeta.getD 0 ≠ fs.dstSizeMeta.getD 0) →
      (setup_sidecar_bundle fs).1 = Except.ok ()
      ∧ FsAction.copyExe ∈ (setup_sidecar_bundle fs).2
      ∧ FsAction.setExePerm ∈ (setup_sidecar_bundle fs).2
      ∧ FsAction.copyInternalDir ∈ (setup_sidecar_bundle fs).2
      ∧ FsAction.setDylibPerms ∈ (setup_sidecar_bundle fs).2
      ∧ (fs.extractedInternalExists = true →
          (setup_sidecar_bundle fs).2.indexOf FsAction.removeOldInternal
            < (setup_sidecar_bundle fs).2.indexOf FsAction.copyInternalDir)) := by
  constructor
  · intro fs h1 h2 h3 h4
    simp [setup_sidecar_bundle, h1, h2, h3, h4]
  · intro fs h1 h2 hdiff
    rcases hdiff with h | h | h
    · simp [setup_sidecar_bundle, h1, h2, h]
      intro hint
      simp [hint, List.indexOf]
      decide
    · simp [setup_sidecar_bundle, h1, h2, h]
    · by_cases hexe : fs.extractedExeExists = true
      · by_cases hint : fs.extractedInternalExists = true
        · simp [setup_sidecar_bundle, h1, h2, h, hexe, hint, List.indexOf]
          decide
        · simp [setup_sidecar_bundle, h1, h2,
            (Bool.not_eq_true _).mp hint]
      · simp [setup_sidecar_bundle, h1, h2, (Bool.not_eq_true _).mp hexe]
        intro hint
        simp [hint, List.indexOf]
        decide

/-- Witness for C7 at concrete inputs: fresh cache reused with no
operations; changed fingerprint re-staged with the old support
directory removed before the new one is copied. -/
theorem C7_artifact_stager_witness :
    setup_sidecar_bundle freshFS = (Except.ok (), [])
    ∧ FsAction.copyExe ∈ (setup_sidecar_bundle staleFS).2
    ∧ (setup_sidecar_bundle staleFS).2.indexOf FsAction.removeOldInternal
        < (setup_sidecar_bundle staleFS).2.indexOf FsAction.copyInternalDir :=
  ⟨C7_artifact_stager.1 freshFS rfl rfl rfl rfl,
   (C7_artifact_stager.2 staleFS rfl rfl (Or.inr (Or.inr (by decide)))).2.1,
   (C7_artifact_stager.2 staleFS rfl rfl
      (Or.inr (Or.inr (by decide)))).2.2.2.2.2 rfl⟩

/-- The health loop reports success iff some attempt within its budget
gets a success response. -/
lemma healthLoop_true_iff (health : Nat → Bool) :
    ∀ (fuel start : Nat),
      (healthLoop health start fuel).1 = true ↔
        ∃ k, start ≤ k ∧ k < start + fuel ∧ health k = true := by
  intro fuel
  induction fuel with
  | zero =>
    intro start
    simp only [healthLoop]
    constructor
    · intro h; exact absurd h (by simp)
    · rintro ⟨k, h1, h2, _⟩; omega
  | succ n ih =>
    intro start
    by_cases h : health start = true
    · simp only [healthLoop, h, if_pos rfl]
      constructor
      · intro _; exact ⟨start, le_refl _, by omega, h⟩
      · intro _; rfl
    · have h' : health start = false := by
        cases hh : health start
        · rfl
        · exact absurd hh h
      simp only [healthLoop, h']
      rw [if_neg (by simp [h'])]
      constructor
      · intro hr
        rcases (ih (start + 1)).mp hr with ⟨k, h1, h2, h3⟩
        exact ⟨k, by omega, by omega, h3⟩
      · rintro ⟨k, h1, h2, h3⟩
        apply (ih (start + 1)).mpr
        refine ⟨k, ?_, by omega, h3⟩
        rcases Nat.eq_or_lt_of_le h1 with rfl | hlt
        · rw [h3] at h'; cases h'
        · omega

/-- A probe for attempt `j` appears in the health-loop trace iff `j` is
within the window and every earlier attempt in the window failed (the
loop stops at the first success). -/
lemma healthLoop_probe_mem (health : Nat → Bool) :
    ∀ (fuel start j : Nat),
      ProcAction.healthProbe j ∈ (healthLoop health start fuel).2 ↔
        (start ≤ j ∧ j < start + fuel ∧ ∀ i, start ≤ i → i < j → health i = false) := by
  intro fuel
  induction fuel with
  | zero =>
    intro start j
    simp only [healthLoop]
    constructor
    · intro h; exact absurd h (by simp)
    · rintro ⟨h1, h2, _⟩; omega
  | succ n ih =>
    intro start j
    by_cases h : health start = true
    · simp only [healthLoop, h, if_pos rfl]
      constructor
      · intro hm
        have hq := List.mem_singleton.mp hm
        have : j = start := ProcAction.healthProbe.inj hq
        subst this
        exact ⟨le_refl _, by omega, fun i hi1 hi2 => by omega⟩
      · rintro ⟨h1, h2, h3⟩
        rcases Nat.eq_or_lt_of_le h1 with rfl | hlt
        · exact List.mem_singleton.mpr rfl
        · rw [h3 start (le_refl _) hlt] at h; cases h
    · have h' : health start = false := by
        cases hh : health start
        · rfl
        · exact absurd hh h
      simp only [healthLoop, h']
      rw [if_neg (by simp [h'])]
      constructor
      · intro hm
        rcases List.mem_cons.mp hm with heq | hm'
        · have : j = start := ProcAction.healthProbe.inj heq
          subst this
          exact ⟨le_refl _, by omega, fun i hi1 hi2 => by omega⟩
        · rcases List.mem_cons.mp hm' with heq | hm''
          · cases heq
          · rcases (ih (start + 1) j).mp hm'' with ⟨h1, h2, h3⟩
            refine ⟨by omega, by omega, fun i hi1 hi2 => ?_⟩
            rcases Nat.eq_or_lt_of_le hi1 with rfl | hlt
            · exact h'
            · exact h3 i (by omega) hi2
      · rintro ⟨h1, h2, h3⟩
        rcases Nat.eq_or_lt_of_le h1 with rfl | hlt
        · exact List.mem_cons.mpr (Or.inl rfl)
        · refine List.mem_cons.mpr (Or.inr (List.mem_cons.mpr (Or.inr ?_)))
          exact (ih (start + 1) j).mpr ⟨by omega, by omega,
            fun i hi1 hi2 => h3 i (by omega) hi2⟩

/-- Claim C5: the health gate polls `/api/health` on the loopback port
at a fixed 500 ms interval for at most 60 attempts and reports success
exactly when some attempt in the budget succeeds, stopping at the first
success; when the budget is exhausted, `start_sidecar` returns the
timeout error with the recorded PID zero, the started flag false and
the handle slot empty, and — when a worker PID was recorded — the
shutdown coordinator's actions form the tail of the issued actions
(it is invoked synchronously before the error is returned). -/
theorem C5_health_gate :
    HEALTH_POLL_INTERVAL_MS = 500
    ∧ HEALTH_MAX_ATTEMPTS = 60
    ∧ (∀ port : Nat,
        health_url port = "http://127.0.0.1:" ++ toString port ++ "/api/health")
    ∧ (∀ health : Nat → Bool,
        (healthLoop health 1 HEALTH_MAX_ATTEMPTS).1 = true ↔
          ∃ k, 1 ≤ k ∧ k ≤ 60 ∧ health k = true)
    ∧ (∀ (health : Nat → Bool) (j : Nat),
        ProcAction.healthProbe j ∈ (healthLoop health 1 HEALTH_MAX_ATTEMPTS).2 →
          1 ≤ j ∧ j ≤ 60)
    ∧ (∀ (health : Nat → Bool) (j k : Nat),
        1 ≤ k → health k = true →
        ProcAction.healthProbe j ∈ (healthLoop health 1 HEALTH_MAX_ATTEMPTS).2 →
          j ≤ k)
    ∧ (∀ (env : LaunchEnv) (port : Nat) (s : SupervisorState),
        s.sidecarStarted = false → env.spawnOk = true →
        (healthLoop env.health 1 HEALTH_MAX_ATTEMPTS).1 = false →
        (start_sidecar env port s).1
            = Except.error "Backend failed to start within timeout"
        ∧ (start_sidecar env port s).2.1.sidecarPid = 0
        ∧ (start_sidecar env port s).2.1.sidecarStarted = false
        ∧ (start_sidecar env port s).2.1.sidecarChild = none
        ∧ (env.spawnPid ≠ 0 → ∃ s1 : SupervisorState,
            s1.sidecarPid = env.spawnPid ∧
            List.IsSuffix (shutdown_sidecar_graceful env.procEnv s1).2.2
              (start_sidecar env port s).2.2)) := by
  refine ⟨rfl, rfl, fun _ => rfl, ?_, ?_, ?_, ?_⟩
  · intro health
    rw [healthLoop_true_iff health HEALTH_MAX_ATTEMPTS 1]
    simp only [HEALTH_MAX_ATTEMPTS]
    constructor
    · rintro ⟨k, h1, h2, h3⟩; exact ⟨k, h1, by omega, h3⟩
    · rintro ⟨k, h1, h2, h3⟩; exact ⟨k, h1, by omega, h3⟩
  · intro health j hm
    rcases (healthLoop_probe_mem health HEALTH_MAX_ATTEMPTS 1 j).mp hm with ⟨h1, h2, _⟩
    simp only [HEALTH_MAX_ATTEMPTS] at h2
    exact ⟨h1, by omega⟩
  · intro health j k hk1 hk hm
    rcases (healthLoop_probe_mem health HEALTH_MAX_ATTEMPTS 1 j).mp hm with ⟨h1, h2, h3⟩
    by_cases hjk : j ≤ k
    · exact hjk
    · rw [h3 k hk1 (by omega)] at hk; cases hk
  · intro env port s h1 h2 h3
    rcases hsb : (setup_sidecar_bundle env.fs).1 with e | u <;> by_cases hp : env.spawnPid = 0
    · simp [start_sidecar, h1, h2, h3, hsb, hp]
    · have hclr := shutdown_sidecar_graceful_clears env.procEnv { s with sidecarPid := env.spawnPid, sidecarChild := some Unit.unit, sidecarStarted := true }
      refine ⟨?_, ?_, ?_, ?_, fun _ => ⟨{ s with sidecarPid := env.spawnPid, sidecarChild := some Unit.unit, sidecarStarted := true }, rfl, ?_⟩⟩
      · simp [start_sidecar, h1, h2, h3, hsb, hp]
      · simp [start_sidecar, h1, h2, h3, hsb, hp, hclr.1]
      · simp [start_sidecar, h1, h2, h3, hsb, hp]
      · simp [start_sidecar, h1, h2, h3, hsb, hp]
      · simp [start_sidecar, h1, h2, h3, hsb, hp]
        exact ⟨(cleanup_leftover_processes_unix env.cleanupEnv).2 ++
          ProcAction.spawnWorker env.spawnPid (buildSidecarArgs port env) ::
            (healthLoop env.health 1 HEALTH_MAX_ATTEMPTS).2, by simp⟩
    · simp [start_sidecar, h1, h2, h3, hsb, hp]
    · have hclr := shutdown_sidecar_graceful_clears env.procEnv { s with sidecarPid := env.spawnPid, sidecarStarted := true }
      refine ⟨?_, ?_, ?_, ?_, fun _ => ⟨{ s with sidecarPid := env.spawnPid, sidecarStarted := true }, rfl, ?_⟩⟩
      · simp [start_sidecar, h1, h2, h3, hsb, hp]
      · simp [start_sidecar, h1, h2, h3, hsb, hp, hclr.1]
      · simp [start_sidecar, h1, h2, h3, hsb, hp]
      · simp [start_sidecar, h1, h2, h3, hsb, hp]
      · simp [start_sidecar, h1, h2, h3, hsb, hp]
        exact ⟨(cleanup_leftover_processes_unix env.cleanupEnv).2 ++
          ProcAction.spawnWorker env.spawnPid (buildSidecarArgs port env) ::
            (healthLoop env.health 1 HEALTH_MAX_ATTEMPTS).2, by simp⟩

/-- Witness for C5 at a concrete input: a worker that never becomes
healthy is cleaned up — the call reports the timeout error with the
recorded PID zero and the started flag false. -/
theorem C5_health_gate_witness :
    (start_sidecar timeoutLaunchEnv 7777 initialSupervisorState).1
        = Except.error "Backend failed to start within timeout"
    ∧ (start_sidecar timeoutLaunchEnv 7777 initialSupervisorState).2.1.sidecarPid = 0
    ∧ (start_sidecar timeoutLaunchEnv 7777
        initialSupervisorState).2.1.sidecarStarted = false :=
  have h := C5_health_gate.2.2.2.2.2.2 timeoutLaunchEnv 7777 initialSupervisorState
    rfl rfl rfl
  ⟨h.1, h.2.1, h.2.2.1⟩

/-- Membership is preserved backwards through `dropWhile`. -/
lemma mem_of_mem_dropWhile {p : Char → Bool} {c : Char} {l : List Char}
    (h : c ∈ l.dropWhile p) : c ∈ l :=
  (List.dropWhile_sublist p).subset h

/-- Membership is preserved backwards through `trimEnds`. -/
lemma mem_of_mem_trimEnds {p : Char → Bool} {c : Char} {l : List Char}
    (h : c ∈ trimEnds p l) : c ∈ l := by
  unfold trimEnds at h
  rw [List.mem_reverse] at h
  have h2 := mem_of_mem_dropWhile h
  rw [List.mem_reverse] at h2
  exact mem_of_mem_dropWhile h2

/-- The sanitising map always produces an allowed character. -/
lemma sanitizeChar_allowed (c : Char) : isAllowedFilenameChar (sanitizeChar c) = true := by
  unfold sanitizeChar
  split
  · assumption
  · decide

/-- Allowed characters are ASCII and are not path separators. -/
lemma allowed_char_ascii (c : Char) (h : isAllowedFilenameChar c = true) :
    c.toNat ≤ 127 ∧ c ≠ '/' ∧ c ≠ '\\' := by
  unfold isAllowedFilenameChar isAsciiAlphanumeric at h
  simp only [Bool.or_eq_true, Bool.and_eq_true, beq_iff_eq, decide_eq_true_eq] at h
  rcases h with (((((((((h | h) | h) | h) | h) | h) | h) | h) | h) | h)
  all_goals first
    | (subst h; exact ⟨by decide, by decide, by decide⟩)
    | exact ⟨by omega,
        fun hc => by subst hc; exact absurd h (by decide),
        fun hc => by subst hc; exact absurd h (by decide)⟩

/-- After trimming, the cleaned character list consists of allowed
characters only. -/
lemma trimmed_map_allowed (base : List Char) :
    (trimEnds rustIsWhitespace
      (trimEnds (fun c => c == '.') (base.map sanitizeChar))).all
        isAllowedFilenameChar = true := by
  rw [List.all_eq_true]
  intro c hc
  have hmem := mem_of_mem_trimEnds (mem_of_mem_trimEnds hc)
  rcases List.mem_map.mp hmem with ⟨b, _, rfl⟩
  exact sanitizeChar_allowed b

/-- The final truncation step preserves the sanitiser's guarantees. -/
lemma take120_props (L : List Char)
    (hall : L.all isAllowedFilenameChar = true)
    (hne : L ≠ []) (hd1 : L ≠ ['.']) (hd2 : L ≠ ['.', '.']) :
    L.take 120 ≠ []
    ∧ (L.take 120).length ≤ 120
    ∧ (L.take 120).all isAllowedFilenameChar = true
    ∧ (L.take 120).all
        (fun c => decide (c.toNat ≤ 127) && !(c == '/') && !(c == '\\')) = true
    ∧ L.take 120 ≠ ['.']
    ∧ L.take 120 ≠ ['.', '.'] := by
  refine ⟨?_, ?_, ?_, ?_, ?_, ?_⟩
  · intro h
    rcases List.take_eq_nil_iff.mp h with h' | h'
    · omega
    · exact hne h'
  · rw [List.length_take]; omega
  · rw [List.all_eq_true] at hall ⊢
    intro c hc
    exact hall c (List.take_subset _ _ hc)
  · rw [List.all_eq_true] at hall ⊢
    intro c hc
    rcases allowed_char_ascii c (hall c (List.take_subset _ _ hc)) with ⟨a1, a2, a3⟩
    simp [a1, a2, a3]
  · by_cases hlen : L.length ≤ 120
    · rw [List.take_of_length_le hlen]; exact hd1
    · intro hcontr
      have := congrArg List.length hcontr
      rw [List.length_take] at this
      simp at this
      omega
  · by_cases hlen : L.length ≤ 120
    · rw [List.take_of_length_le hlen]; exact hd2
    · intro hcontr
      have := congrArg List.length hcontr
      rw [List.length_take] at this
      simp at this
      omega

/-- `dropWhile` is the identity when no element satisfies the
predicate. -/
lemma dropWhile_eq_self_of_not {p : Char → Bool} :
    ∀ {l : List Char}, (∀ c ∈ l, p c = false) → l.dropWhile p = l
  | [], _ => rfl
  | c :: rest, h => by
    rw [List.dropWhile_cons, h c (List.mem_cons_self c rest)]
    simp

/-- `trimEnds` is the identity when no element satisfies the
predicate. -/
lemma trimEnds_eq_self_of_not {p : Char → Bool} {l : List Char}
    (h : ∀ c ∈ l, p c = false) : trimEnds p l = l := by
  unfold trimEnds
  rw [dropWhile_eq_self_of_not h,
    dropWhile_eq_self_of_not (fun c hc => h c (List.mem_reverse.mp hc)),
    List.reverse_reverse]

/-- `trimEnds` empties a list all of whose elements satisfy the
predicate. -/
lemma trimEnds_eq_nil_of_all {p : Char → Bool} {l : List Char}
    (h : ∀ c ∈ l, p c = true) : trimEnds p l = [] := by
  unfold trimEnds
  rw [List.dropWhile_eq_nil_iff.mpr (fun c hc => h c hc)]
  rfl

/-- `map` is the identity when the function fixes every element. -/
lemma map_eq_self_of_fixed {f : Char → Char} :
    ∀ {l : List Char}, (∀ c ∈ l, f c = c) → l.map f = l
  | [], _ => rfl
  | c :: rest, h => by
    rw [List.map_cons, h c (List.mem_cons_self c rest),
      map_eq_self_of_fixed (fun c hc => h c (List.mem_cons_of_mem _ hc))]

/-- `lastSegment` is the identity on lists containing no `'/'`. -/
lemma lastSegment_eq_self_of_no_slash {l : List Char}
    (h : ∀ c ∈ l, (c == '/') = false) : lastSegment l = l := by
  unfold lastSegment
  rw [List.takeWhile_eq_self_iff.mpr ?hp, List.reverse_reverse]
  case hp =>
    intro c hc
    rw [h c (List.mem_reverse.mp hc)]
    rfl

/-- Claim C9: for every input, `sanitize_download_filename` returns a
non-empty all-ASCII result of at most 120 characters (hence bytes),
containing no path separator, never equal to `"."` or `".."`, and made
only of ASCII alphanumerics and `. - _ ( ) space %`; empty, dot-only
and whitespace-only inputs produce the fallback `"download"`. -/
theorem C9_sanitize_filename :
    (∀ raw : List Char,
      sanitize_download_filename raw ≠ []
      ∧ (sanitize_download_filename raw).length ≤ 120
      ∧ (sanitize_download_filename raw).all isAllowedFilenameChar = true
      ∧ (sanitize_download_filename raw).all
          (fun c => decide (c.toNat ≤ 127) && !(c == '/') && !(c == '\\')) = true
      ∧ sanitize_download_filename raw ≠ ['.']
      ∧ sanitize_download_filename raw ≠ ['.', '.'])
    ∧ (∀ raw : List Char, raw.all (fun c => c == '.') = true →
        sanitize_download_filename raw = "download".toList)
    ∧ (∀ raw : List Char, raw.all rustIsWhitespace = true →
        sanitize_download_filename raw = "download".toList) := by
  refine ⟨?_, ?_, ?_⟩
  · intro raw
    simp only [sanitize_download_filename]
    split
    · exact ⟨by decide, by decide, by decide, by decide, by decide, by decide⟩
    · split
      · exact ⟨by decide, by decide, by decide, by decide, by decide, by decide⟩
      · rename_i h2
        push_neg at h2
        exact take120_props _ (trimmed_map_allowed _) h2.1 h2.2.1 h2.2.2
  · intro raw hall
    rw [List.all_eq_true] at hall
    have hdot : ∀ c ∈ raw, c = '.' := fun c hc => by
      have := hall c hc
      simpa using this
    have hmap : raw.map (fun c => if c == '\\' then '/' else c) = raw :=
      map_eq_self_of_fixed (fun c hc => by rw [hdot c hc]; decide)
    have hseg : lastSegment raw = raw :=
      lastSegment_eq_self_of_no_slash (fun c hc => by rw [hdot c hc]; decide)
    have htrim : trimEnds rustIsWhitespace raw = raw :=
      trimEnds_eq_self_of_not (fun c hc => by rw [hdot c hc]; decide)
    simp only [sanitize_download_filename, hmap, hseg, htrim]
    by_cases htriv : raw = [] ∨ raw = ['.'] ∨ raw = ['.', '.']
    · rw [if_pos htriv]
    · rw [if_neg htriv]
      have hmapsan : raw.map sanitizeChar = raw :=
        map_eq_self_of_fixed (fun c hc => by rw [hdot c hc]; decide)
      rw [hmapsan, trimEnds_eq_nil_of_all (fun c hc => hall c hc)]
      decide
  · intro raw hall
    rw [List.all_eq_true] at hall
    have hmap : raw.map (fun c => if c == '\\' then '/' else c) = raw :=
      map_eq_self_of_fixed (fun c hc => by
        cases hcb : c == '\\'
        · simp
        · exact absurd ((eq_of_beq hcb) ▸ hall c hc) (by decide))
    have hseg : lastSegment raw = raw :=
      lastSegment_eq_self_of_no_slash (fun c hc => by
        cases hcb : c == '/'
        · rfl
        · exact absurd ((eq_of_beq hcb) ▸ hall c hc) (by decide))
    simp only [sanitize_download_filename, hmap, hseg]
    rw [trimEnds_eq_nil_of_all hall]
    decide

/-- Witness for the conditional parts of C9 at concrete inputs. -/
theorem C9_sanitize_filename_witness :
    sanitize_download_filename ("...".toList) = "download".toList
    ∧ sanitize_download_filename ("   ".toList) = "download".toList
    ∧ sanitize_download_filename ("report".toList) ≠ [] :=
  ⟨C9_sanitize_filename.2.1 ("...".toList) (by decide),
   C9_sanitize_filename.2.2 ("   ".toList) (by decide),
   (C9_sanitize_filename.1 ("report".toList)).1⟩

end AppCollab
